import Mathlib

/-!
Shallow embedding of the orchestration and in-memory state subsystem of
`src/internship/app.py` (a Flask conversational backend): the sliding-window
rate limiter, session store, bounded history log, conversational context
tracker (mood and name extraction), Wikipedia response formatting, the
response router with its fallback responder, and the history read route.

Python strings are modelled as `List Char` (code points; Python `len` also
counts code points). Wall-clock times (`datetime.now()`) are modelled as
`Int` seconds. External effects (the Wikipedia fetch, the Gemini model
call, `uuid`, the clock) are injected as explicit arguments. The texts the
program manipulates are ASCII apart from emoji, so the ASCII
`Char.toLower`/`Char.isAlpha` faithfully model `str.lower`/`\w` here.
-/

namespace App

/-- Python `\w` on the program's ASCII texts: `[A-Za-z0-9_]`. -/
def isWordChar (c : Char) : Bool :=
  c.isAlpha || c.isDigit || c = '_'

/-- Python `\s` / `str.strip` whitespace on ASCII texts. -/
def isSpaceChar (c : Char) : Bool :=
  c = ' ' || c = '\t' || c = '\n' || c = '\r' || c = '\x0b' || c = '\x0c'

/-- Python `str.lower` (the program's texts are ASCII plus emoji, which
`lower` leaves unchanged). -/
def lowerStr (s : List Char) : List Char :=
  s.map Char.toLower

/-- Python `needle in hay` substring containment. -/
def strContains (hay needle : List Char) : Bool :=
  (List.range (hay.length + 1)).any (fun i => needle.isPrefixOf (hay.drop i))

/-- Python `str.strip()`: drop whitespace from both ends. -/
def pyStrip (s : List Char) : List Char :=
  ((s.dropWhile isSpaceChar).reverse.dropWhile isSpaceChar).reverse

/-- Python `str.capitalize()`: first character uppercased, the rest lowercased. -/
def pyCapitalize (s : List Char) : List Char :=
  match s with
  | [] => []
  | c :: cs => Char.toUpper c :: cs.map Char.toLower

/-- Python `content.split('\n\n')` (leftmost, non-overlapping), with the
chunk under construction carried reversed in `acc`: a `"\n\n"` ends the
chunk; any other character (including a lone `'\n'` before a
non-newline) joins it. -/
def splitNN (acc : List Char) : List Char → List (List Char)
  | [] => [acc.reverse]
  | c :: rest =>
    if c = '\n' then
      match rest with
      | [] => [(c :: acc).reverse]
      | c2 :: rest2 =>
        if c2 = '\n' then acc.reverse :: splitNN [] rest2
        else splitNN (c2 :: c :: acc) rest2
    else splitNN (c :: acc) rest

/-- The `Config` dataclass (lines 58-68): application settings with their
in-source defaults. `GOOGLE_API_KEY` defaults to the empty string when the
environment provides none. -/
structure Config where
  GOOGLE_API_KEY : String := ""
  MAX_HISTORY_ENTRIES : Nat := 1000
  API_TIMEOUT : Nat := 10
  SESSION_TIMEOUT_HOURS : Int := 24
  RATE_LIMIT_PER_MINUTE : Nat := 60
  MAX_MESSAGE_LENGTH : Nat := 2000

/-- The body of `RateLimiter.is_rate_limited` (lines 114-131): prune the
key's timestamps to those strictly newer than `now - 60` seconds, deny
(`true`) without recording when the pruned count reaches the threshold,
otherwise record `now` and allow (`false`). The `rate_limit_tracker` dict
is modelled as a total map defaulting to `[]`, matching the
create-on-demand of lines 119-120; the pruned list is written back in both
branches, as the assignment on line 122 does. -/
def is_rate_limited (cfg : Config) (tracker : String → List Int) (now : Int)
    (client_ip : String) : Bool × (String → List Int) :=
  let pruned := (tracker client_ip).filter (fun ts => now - 60 < ts)
  if cfg.RATE_LIMIT_PER_MINUTE ≤ pruned.length then
    (true, fun k => if k = client_ip then pruned else tracker k)
  else
    (false, fun k => if k = client_ip then pruned ++ [now] else tracker k)

/-- A sequence of `is_rate_limited` checks for one key at the given times,
in order, threading the tracker; returns the per-check results and the
final tracker. -/
def runChecks (cfg : Config) (key : String) :
    List Int → (String → List Int) → List Bool × (String → List Int)
  | [], tr => ([], tr)
  | t :: ts, tr =>
    let step := is_rate_limited cfg tr t key
    let rest := runChecks cfg key ts step.2
    (step.1 :: rest.1, rest.2)

/-- The `try`/`except` wrapper of `RateLimiter.is_rate_limited`
(lines 115-135): the body either completes with a boolean or raises; the
`except` arm logs and returns `False` — the request is treated as allowed,
and no exception propagates to the caller. -/
def rateLimiterCall (bodyOutcome : Except String Bool) : Bool :=
  match bodyOutcome with
  | Except.ok b => b
  | Except.error _ => false

/-- A `HistoryEntry` dict as built by `HistoryManager.add_conversation`
(lines 206-216); all fields are strings there (`id` from `uuid`,
`timestamp`/`date`/`time` from `strftime`, `response_time` formatted). -/
structure HistoryEntry where
  id : String
  timestamp : String
  date : String
  time : String
  user : String
  bot : String
  session_id : String
  input_method : String
  response_time : String
deriving DecidableEq

/-- The log mutation of `HistoryManager.add_conversation` (lines 218-221):
append the entry, then `pop(0)` when the length exceeds the capacity. The
entry construction itself (lines 205-216) draws on the clock and `uuid`,
so the built entry is injected. -/
def add_conversation (cfg : Config) (log : List HistoryEntry)
    (entry : HistoryEntry) : List HistoryEntry :=
  let log2 := log ++ [entry]
  if cfg.MAX_HISTORY_ENTRIES < log2.length then log2.tail else log2

/-- `HistoryManager.get_recent_conversations` (lines 229-237):
`list(reversed(conversation_history[-limit:]))` with the Python guard
`if conversation_history else []`. For `limit = 0` the slice `[-0:]` is
`[0:]`, the whole list. -/
def get_recent_conversations (log : List HistoryEntry) (limit : Nat) :
    List HistoryEntry :=
  (if log = [] then []
   else if limit = 0 then log
   else log.drop (log.length - limit)).reverse

/-- `HistoryManager.clear_history` (lines 239-247): empties the log and
reports success. -/
def clear_history (_log : List HistoryEntry) : List HistoryEntry × Bool :=
  ([], true)

/-- The `get_history` route (lines 779-794): cap the requested limit at
500, read the recent conversations, return them with their count. -/
def get_history_route (log : List HistoryEntry) (limit : Nat) :
    List HistoryEntry × Nat :=
  let capped := min limit 500
  let conversations := get_recent_conversations log capped
  (conversations, conversations.length)

/-- An `active_sessions` record as built by `SessionManager.create_session`
(lines 145-150), with times as `Int` seconds. -/
structure SessionData where
  created : Int
  last_activity : Int
  user_ip : String
  message_count : Nat
deriving DecidableEq

/-- One exchange of a context's `conversation_history`
(lines 287-292). -/
structure Exchange where
  user : String
  bot : String
  timestamp : Int
  mood : String
deriving DecidableEq

/-- A `user_contexts` record (lines 152-160 / 258-266). `preferences` is
an always-empty dict downstream and is omitted. -/
structure UserContext where
  conversation_history : List Exchange
  user_name : Option String
  topics_discussed : List String
  mood : String
  last_topic : Option String
  interaction_count : Nat
deriving DecidableEq

/-- The fresh context dict of lines 152-160 / 258-266. -/
def emptyContext : UserContext :=
  { conversation_history := []
    user_name := none
    topics_discussed := []
    mood := "neutral"
    last_topic := none
    interaction_count := 0 }

/-- `SessionManager.create_session` (lines 138-166): store a fresh session
record and an empty context under the given id. The id itself comes from
`uuid.uuid4()` and is injected. Returns the updated `active_sessions` and
`user_contexts` maps. -/
def create_session (sessions : String → Option SessionData)
    (contexts : String → Option UserContext) (session_id : String)
    (now : Int) (user_ip : String) :
    (String → Option SessionData) × (String → Option UserContext) :=
  (fun k => if k = session_id then
      some { created := now, last_activity := now, user_ip := user_ip,
             message_count := 0 }
    else sessions k,
   fun k => if k = session_id then some emptyContext else contexts k)

/-- `SessionManager.update_session` (lines 168-179): touch `last_activity`
and bump `message_count` when the id is known. -/
def update_session (sessions : String → Option SessionData)
    (session_id : String) (now : Int) :
    (String → Option SessionData) × Bool :=
  match sessions session_id with
  | some s =>
    (fun k => if k = session_id then
        some { s with last_activity := now, message_count := s.message_count + 1 }
      else sessions k, true)
  | none => (sessions, false)

/-- `SessionManager.is_valid_session` (lines 181-195): `False` for an empty
or unknown id, otherwise `last_activity > now - SESSION_TIMEOUT_HOURS`.
The Python body is wrapped in `try`/`except` returning `False`; this
embedding is total, so no fault path remains. -/
def is_valid_session (cfg : Config) (sessions : String → Option SessionData)
    (now : Int) (session_id : String) : Bool :=
  if session_id = "" then false
  else
    match sessions session_id with
    | none => false
    | some s => decide (now - cfg.SESSION_TIMEOUT_HOURS * 3600 < s.last_activity)

/-- The mood keyword table of `ConversationEnhancer.update_context`
(lines 272-276), in dict insertion order. -/
def moodKeywords : List (String × List String) :=
  [("positive", ["great", "awesome", "love", "excited", "happy"]),
   ("negative", ["sad", "angry", "frustrated", "disappointed"]),
   ("neutral", ["okay", "fine", "alright"])]

/-- The mood scan of lines 278-284: the first keyword set with a substring
hit in the lowered message wins; default `neutral`. -/
def detectMood (userLower : List Char) : String :=
  match moodKeywords.find?
      (fun p => p.2.any (fun kw => strContains userLower kw.data)) with
  | some p => p.1
  | none => "neutral"

/-- The alternatives of the name regex
`(?:my name is|call me|i am|i'm)\s+(\w+)` (line 299), in pattern order. -/
def nameAlternatives : List (List Char) :=
  ["my name is".data, "call me".data, "i am".data, "i'm".data]

/-- One alternative of the name regex tried at position `i`: the literal
phrase, then at least one whitespace (`\s+`, greedy), then the captured
maximal nonempty word-character run (`(\w+)`). `\s` and `\w` are disjoint,
so the greedy match is the only one. -/
def altMatchAt (text alt : List Char) (i : Nat) : Option (List Char) :=
  if alt.isPrefixOf (text.drop i) then
    let rest := (text.drop i).drop alt.length
    let sp := rest.takeWhile isSpaceChar
    if sp.length = 0 then none
    else
      let w := (rest.drop sp.length).takeWhile isWordChar
      if w.length = 0 then none else some w
  else none

/-- The whole alternation tried at position `i`, alternatives in pattern
order (Python tries a regex alternation left to right). -/
def matchNameAt (text : List Char) (i : Nat) : Option (List Char) :=
  nameAlternatives.findSome? (fun alt => altMatchAt text alt i)

/-- `re.search` scanning: try the pattern at position `i`, then `i + 1`, …
while `fuel` positions remain; the leftmost position with a match wins. -/
def searchNameAux (text : List Char) (i : Nat) : Nat → Option (List Char)
  | 0 => none
  | fuel + 1 =>
    match matchNameAt text i with
    | some w => some w
    | none => searchNameAux text (i + 1) fuel

/-- The `re.search` of line 299 over the lowered user message: positions
`0` through `text.length` are tried in order. -/
def searchName (text : List Char) : Option (List Char) :=
  searchNameAux text 0 (text.length + 1)

/-- `ConversationEnhancer.update_context` (lines 253-301) on one session's
context record: bump the interaction counter, detect the mood, append the
exchange truncating the window to the last 10, then extract and store a
capitalized name when the regex matches the lowered message. The
create-if-missing of lines 256-266 is the `emptyContext` at the call
site. -/
def update_context (ctx : UserContext) (now : Int) (user_msg bot_reply : String) :
    UserContext :=
  let user_lower := lowerStr user_msg.data
  let detected_mood := detectMood user_lower
  let hist := ctx.conversation_history ++
    [{ user := user_msg, bot := bot_reply, timestamp := now, mood := detected_mood }]
  let hist2 := if 10 < hist.length then hist.drop (hist.length - 10) else hist
  let name := match searchName user_lower with
    | some w => some (String.mk (pyCapitalize w))
    | none => ctx.user_name
  { ctx with
    interaction_count := ctx.interaction_count + 1
    mood := detected_mood
    conversation_history := hist2
    user_name := name }

/-- The question-word list of `WikipediaService._clean_query`
(line 359). -/
def question_words : List String :=
  ["what is", "who is", "tell me about", "explain", "describe", "define"]

/-- `WikipediaService._clean_query` (lines 357-364): strip one leading
question phrase (first in list order) from the stripped query, stripping
again. -/
def clean_query (query : List Char) : List Char :=
  let q := pyStrip query
  match question_words.find?
      (fun w => w.data.isPrefixOf (lowerStr q)) with
  | some w => pyStrip (q.drop w.data.length)
  | none => q

/-- Word-boundary test of Python `\b` before position `i`: the phrase
starts with a word character, so the boundary holds at the text's start or
after a non-word character. -/
def boundaryBefore (text : List Char) (i : Nat) : Bool :=
  i = 0 || !isWordChar (text.getD (i - 1) ' ')

/-- Word-boundary test of Python `\b` after position `j` (exclusive): the
phrase ends with a word character, so the boundary holds at the text's end
or before a non-word character. -/
def boundaryAfter (text : List Char) (j : Nat) : Bool :=
  text.length ≤ j || !isWordChar (text.getD j ' ')

/-- `re.search` of a word-bounded literal alternative `\b(phrase)\b`:
some position carries the phrase with boundaries on both sides. -/
def matchWordBounded (text phrase : List Char) : Bool :=
  (List.range (text.length + 1)).any (fun i =>
    phrase.isPrefixOf (text.drop i) && boundaryBefore text i &&
      boundaryAfter text (i + phrase.length))

/-- The alternatives of the two `wiki_patterns` regexes of
`WikipediaService.is_wikipedia_query` (lines 460-463). -/
def wikiPhrases : List String :=
  ["what is", "who is", "tell me about", "explain", "describe", "define",
   "wikipedia", "facts about", "information about"]

/-- `WikipediaService.is_wikipedia_query` (lines 457-464): any alternative
of either pattern matches word-bounded somewhere in the lowered message. -/
def is_wikipedia_query (message : List Char) : Bool :=
  wikiPhrases.any (fun p => matchWordBounded (lowerStr message) p.data)

/-- The paragraph filter of `_format_comprehensive_response`
(lines 387-391): stripped, nonempty, longer than 100 characters, not a
section header. -/
def qualifiesParagraph (p : List Char) : Bool :=
  !p.isEmpty && decide (100 < p.length) && !(['=', '='].isPrefixOf p)

/-- Lines 387-391: split the page content on blank lines, strip each
piece, keep the qualifying paragraphs. -/
def paragraphsOf (content : List Char) : List (List Char) :=
  ((splitNN [] content).map pyStrip).filter qualifiesParagraph

/-- Python `para[:remaining].rsplit('.', 1)[0]` (line 405): everything
before the last period when the slice contains one, else the whole
slice. -/
def rsplitDotFst (s : List Char) : List Char :=
  if '.' ∈ s then ((s.reverse.dropWhile (fun c => c ≠ '.')).tail).reverse
  else s

/-- The title heading `response_parts[0]` of line 396. -/
def headPart (title : List Char) : List Char :=
  "📚 **".data ++ title ++ "**\n\n".data

/-- The source-attribution footer of line 415. -/
def wikiFooter : List Char :=
  "🔗 *Source: Wikipedia*".data

/-- The paragraph loop of `_format_comprehensive_response`
(lines 401-413), returning the appended parts. `cl` is `current_length`.
A paragraph that would push past the hard cap 4000 ends the loop, after
appending one period-truncated slice when fewer than 3000 characters are
accumulated (`remaining = 4000 - cl - 50`); otherwise the paragraph is
appended with its `"\n\n"` and the loop stops once `cl` reaches the soft
target 3500. -/
def formatLoop : List (List Char) → Nat → List (List Char)
  | [], _ => []
  | para :: rest, cl =>
    if 4000 < cl + para.length then
      if cl < 3000 then
        [rsplitDotFst (para.take (4000 - cl - 50)) ++ ['.'] ++ "\n\n".data]
      else []
    else
      (para ++ "\n\n".data) ::
        (if 3500 ≤ cl + para.length + 2 then []
         else formatLoop rest (cl + para.length + 2))

/-- `WikipediaService._format_comprehensive_response` (lines 382-421):
`none` when no paragraph qualifies, otherwise the heading, the loop's
parts and the footer concatenated. -/
def format_comprehensive_response (title content : List Char) :
    Option (List Char) :=
  let paragraphs := paragraphsOf content
  if paragraphs.isEmpty then none
  else
    some (headPart title ++ (formatLoop paragraphs (headPart title).length).flatten
      ++ wikiFooter)

/-- `WikipediaService.search_wikipedia` (lines 347-355) specialized to the
case the page fetch (`wikipedia.page`, line 368) succeeds with the given
title and content: format the page, and fall back to the injected output
of `_get_search_suggestions` (a related-articles listing, or the not-found
apology when the search comes back empty) when the formatter yields
nothing. -/
def search_wikipedia_found (title content suggestions : String) : String :=
  match format_comprehensive_response title.data content.data with
  | some r => String.mk r
  | none => suggestions

/-- A response dict of `AIService` (e.g. lines 477-481): text, source tag
and emoji. -/
structure Envelope where
  text : String
  source : String
  emoji : String
deriving DecidableEq

/-- The outcome of one `model.generate_content` call (injected):
`ok (some t)` — a truthy response whose `text` attribute holds `t`
(possibly empty); `ok none` — a falsy response or one without a `text`
attribute; `error` — the call raised. -/
inductive GeminiOutcome where
  | ok (text : Option String)
  | error (msg : String)
deriving DecidableEq

/-- The user name the fallback responder reads from `user_contexts`
(lines 576-577): `context.get('user_name', '')` with a missing session
giving `{}`; a stored `None` is falsy, like the empty string. -/
def lookedUpName (contexts : String → Option UserContext)
    (session_id : String) : String :=
  match contexts session_id with
  | some ctx => ctx.user_name.getD ""
  | none => ""

/-- The capability listing of lines 597-602 (no name slot). -/
def capabilityText : String :=
  "I can help you with:\n\n📚 Search Wikipedia for information\n💬 Answer questions\n🤔 General conversation\n\nWhat would you like to explore?"

/-- The question prompt of lines 613-618 (no name slot). -/
def questionText : String :=
  "That's an interesting question! Try asking about specific topics and I'll search Wikipedia for accurate information."

/-- `AIService._get_fallback_response` (lines 572-626): ordered substring
checks over the lowered message; `name_greeting` is a space and the name
when one is known, else empty. -/
def get_fallback_response (contexts : String → Option UserContext)
    (message session_id : String) : Envelope :=
  let message_lower := lowerStr message.data
  let user_name := lookedUpName contexts session_id
  let name_greeting := if user_name = "" then "" else " " ++ user_name
  if ["hello", "hi", "hey", "good morning", "good evening"].any
      (fun w => strContains message_lower w.data) then
    { text := "👋 Hello" ++ name_greeting ++ "! I'm your AI assistant. How can I help you today?"
      source := "fallback", emoji := "👋" }
  else if ["how are you", "how r u"].any
      (fun w => strContains message_lower w.data) then
    { text := "I'm doing great" ++ name_greeting ++ "! Ready to help. What would you like to know?"
      source := "fallback", emoji := "😊" }
  else if ["help", "what can you do"].any
      (fun w => strContains message_lower w.data) then
    { text := capabilityText, source := "fallback", emoji := "💡" }
  else if ["thank", "thanks"].any
      (fun w => strContains message_lower w.data) then
    { text := "You're welcome" ++ name_greeting ++ "! Happy to help anytime! 😊"
      source := "fallback", emoji := "😊" }
  else if message.data.contains '?' then
    { text := questionText, source := "fallback", emoji := "🤔" }
  else
    { text := "I understand" ++ name_greeting ++ "! Feel free to ask me anything, especially factual topics I can research for you."
      source := "fallback", emoji := "💬" }

/-- `AIService._get_gemini_response` (lines 498-528): fall back when
Gemini is unconfigured, when the call raises, or when the response is
falsy, lacks a `text` attribute or has an empty one; otherwise a `gemini`
envelope with the response text. -/
def get_gemini_response (genai_available : Bool) (cfg : Config)
    (outcome : GeminiOutcome) (contexts : String → Option UserContext)
    (message session_id : String) : Envelope :=
  if !genai_available || cfg.GOOGLE_API_KEY = "" then
    get_fallback_response contexts message session_id
  else
    match outcome with
    | GeminiOutcome.ok (some t) =>
      if t = "" then get_fallback_response contexts message session_id
      else { text := t, source := "gemini", emoji := "🤖" }
    | GeminiOutcome.ok none => get_fallback_response contexts message session_id
    | GeminiOutcome.error _ => get_fallback_response contexts message session_id

/-- `AIService._get_gemini_code_response` (lines 530-570): a `source=error`
envelope when Gemini is unconfigured; otherwise a `gemini-code` envelope
whose body is the response text when the response has one, a fixed
apology when it lacks one, and a fixed apology when the call raises
(the inner `except` of lines 554-556). -/
def get_gemini_code_response (genai_available : Bool) (cfg : Config)
    (outcome : GeminiOutcome) (_message : String) : Envelope :=
  if !genai_available || cfg.GOOGLE_API_KEY = "" then
    { text := "Code generation requires AI setup.", source := "error", emoji := "💻" }
  else
    let response_text := match outcome with
      | GeminiOutcome.ok (some t) => t
      | GeminiOutcome.ok none => "Couldn't generate code."
      | GeminiOutcome.error _ => "I couldn't generate code at this time."
    { text := "**Code Generated**\n\n" ++ response_text
      source := "gemini-code", emoji := "💻" }

/-- The code-generation keyword check of line 484. -/
def is_code_request (message : List Char) : Bool :=
  ["write code", "generate code", "python code", "javascript code"].any
    (fun kw => strContains (lowerStr message) kw.data)

/-- `AIService.get_response` (lines 471-496): Wikipedia queries first
(with the injected `search_wikipedia` result `wiki_result`), then
code-generation requests, then the general Gemini/fallback path. -/
def get_response (genai_available : Bool) (cfg : Config)
    (wiki_result : String) (outcome : GeminiOutcome)
    (contexts : String → Option UserContext)
    (message session_id : String) : Envelope :=
  if is_wikipedia_query message.data then
    { text := wiki_result, source := "wikipedia", emoji := "🔍" }
  else if is_code_request message.data then
    get_gemini_code_response genai_available cfg outcome message
  else
    get_gemini_response genai_available cfg outcome contexts message session_id

/-! ## Theorems -/

/-- A concrete history entry for witnesses. -/
def sampleEntry (n : String) : HistoryEntry :=
  { id := n, timestamp := "2024-01-01 00:00:00", date := "2024-01-01",
    time := "00:00:00", user := "u", bot := "b", session_id := "s",
    input_method := "text", response_time := "0.00s" }

/-- C5: any internal fault raised while performing an admission check is
caught by the `except` arm and reported as `False`, i.e. the request is
treated as allowed (fail open); the wrapper is a total function, so no
error propagates to the caller, and on a fault-free run it returns
exactly what the check body computed. -/
theorem rate_limiter_fail_open :
    (∀ e : String, rateLimiterCall (Except.error e) = false)
    ∧ (∀ (cfg : Config) (tracker : String → List Int) (now : Int) (key : String),
        rateLimiterCall (Except.ok (is_rate_limited cfg tracker now key).1) =
          (is_rate_limited cfg tracker now key).1) :=
  ⟨fun _ => rfl, fun _ _ _ _ => rfl⟩

theorem add_conversation_foldl (cfg : Config)
    (hcap : 0 < cfg.MAX_HISTORY_ENTRIES) :
    ∀ (es log : List HistoryEntry), log.length ≤ cfg.MAX_HISTORY_ENTRIES →
      es.foldl (add_conversation cfg) log =
        (log ++ es).drop (log.length + es.length - cfg.MAX_HISTORY_ENTRIES) := by
  intro es
  induction es with
  | nil =>
    intro log hlog
    simp [Nat.sub_eq_zero_of_le, hlog]
  | cons e es ih =>
    intro log hlog
    simp only [List.foldl_cons]
    by_cases hlt : log.length < cfg.MAX_HISTORY_ENTRIES
    · have hstep : add_conversation cfg log e = log ++ [e] := by
        simp only [add_conversation]
        rw [if_neg (by simp; omega)]
      rw [hstep, ih (log ++ [e]) (by simp; omega)]
      have hl : (log ++ [e]) ++ es = log ++ e :: es := by simp
      rw [hl]
      congr 1
      simp
      omega
    · have heq : log.length = cfg.MAX_HISTORY_ENTRIES := by omega
      have hne : log ≠ [] := by
        intro hn
        rw [hn] at heq
        simp at heq
        omega
      rcases List.exists_cons_of_ne_nil hne with ⟨l0, lt, rfl⟩
      have heq2 : lt.length + 1 = cfg.MAX_HISTORY_ENTRIES := by
        simpa using heq
      have hstep : add_conversation cfg (l0 :: lt) e = lt ++ [e] := by
        simp only [add_conversation]
        rw [if_pos (by simp; omega)]
        simp
      rw [hstep, ih (lt ++ [e]) (by simp; omega)]
      have hl : (lt ++ [e]) ++ es = lt ++ e :: es := by simp
      rw [hl]
      have h1 : (lt ++ [e]).length + es.length - cfg.MAX_HISTORY_ENTRIES
          = es.length := by
        simp
        omega
      have h2 : (l0 :: lt).length + (e :: es).length - cfg.MAX_HISTORY_ENTRIES
          = es.length + 1 := by
        simp
        omega
      rw [h1, h2]
      have h3 : (l0 :: lt) ++ e :: es = l0 :: (lt ++ e :: es) := by simp
      rw [h3, List.drop_succ_cons]

/-- C2: starting from an empty log, appending `capacity + k` entries
leaves exactly the most recent `capacity` of them, in insertion order,
with the oldest `k` evicted from the head; and no sequence of appends ever
leaves more than `capacity` entries. -/
theorem history_log_fifo_bound (cfg : Config)
    (hcap : 0 < cfg.MAX_HISTORY_ENTRIES) (es : List HistoryEntry) (k : Nat)
    (hlen : es.length = cfg.MAX_HISTORY_ENTRIES + k) :
    es.foldl (add_conversation cfg) [] = es.drop k
    ∧ (es.foldl (add_conversation cfg) []).length = cfg.MAX_HISTORY_ENTRIES
    ∧ ∀ fs : List HistoryEntry,
        (fs.foldl (add_conversation cfg) []).length ≤ cfg.MAX_HISTORY_ENTRIES := by
  have hmain := add_conversation_foldl cfg hcap es [] (by simp)
  constructor
  · rw [hmain]
    simp [hlen]
  constructor
  · rw [hmain]
    simp [hlen]
  · intro fs
    have h := add_conversation_foldl cfg hcap fs [] (by simp)
    rw [h]
    simp
    omega

theorem history_log_fifo_bound_witness :
    [sampleEntry "1", sampleEntry "2", sampleEntry "3"].foldl
        (add_conversation { MAX_HISTORY_ENTRIES := 2 }) [] =
      [sampleEntry "2", sampleEntry "3"] := by
  have h := (history_log_fifo_bound { MAX_HISTORY_ENTRIES := 2 } (by decide)
    [sampleEntry "1", sampleEntry "2", sampleEntry "3"] 1 (by decide)).1
  simpa using h

/-- C8 counterexample: with one entry in the log, a read with
`limit = 0` (a non-negative limit) returns that entry — Python's
`history[-0:]` is the whole list — so the count exceeds
`min(limit, 500) = 0`, refuting the claim for every non-negative limit. -/
theorem recent_history_limit_zero_counterexample :
    (get_history_route [sampleEntry "1"] 0).2 = 1
    ∧ ¬((get_history_route [sampleEntry "1"] 0).2 ≤ min 0 500) := by
  constructor
  · rfl
  · decide

/-- C8 amended: for every positive limit the read returns at most
`min(limit, 500)` entries — the most recent ones, newest first — and
reports their count (for `limit = 0` the whole log comes back instead,
newest first); after a clear, a subsequent read returns the empty
sequence and count 0. -/
theorem recent_history_read :
    (∀ (log : List HistoryEntry) (limit : Nat), 1 ≤ limit →
      (get_history_route log limit).1 =
          (log.drop (log.length - min limit 500)).reverse
        ∧ (get_history_route log limit).1.length ≤ min limit 500
        ∧ (get_history_route log limit).2 = (get_history_route log limit).1.length)
    ∧ (∀ (log : List HistoryEntry) (limit : Nat),
        get_history_route (clear_history log).1 limit = ([], 0)) := by
  constructor
  · intro log limit hlim
    have hmin : ¬ (min limit 500 = 0) := by omega
    have h1 : (get_history_route log limit).1 =
        (log.drop (log.length - min limit 500)).reverse := by
      by_cases hnil : log = []
      · subst hnil
        simp [get_history_route, get_recent_conversations]
      · simp [get_history_route, get_recent_conversations, hnil, hmin]
    refine ⟨h1, ?_, rfl⟩
    rw [h1]
    simp
    omega
  · intro log limit
    rfl

theorem recent_history_read_witness :
    (get_history_route [sampleEntry "1", sampleEntry "2"] 1).1 =
      [sampleEntry "2"] := by
  have h := ((recent_history_read).1 [sampleEntry "1", sampleEntry "2"] 1
    (by decide)).1
  simpa using h

/-- C4 counterexample: a session created at time 0 and checked at time
86400 (elapsed exactly the default 24-hour timeout, which does not
exceed it) is reported invalid, because line 191 compares strictly:
the claim's "false only if unknown/empty or elapsed exceeds the timeout"
fails at this boundary. -/
theorem session_timeout_boundary_counterexample :
    (create_session (fun _ => none) (fun _ => none) "s" 0 "ip").1 "s" ≠ none
    ∧ ("s" : String) ≠ ""
    ∧ ((86400 : Int) - 0 ≤ ({} : Config).SESSION_TIMEOUT_HOURS * 3600)
    ∧ is_valid_session {}
        (create_session (fun _ => none) (fun _ => none) "s" 0 "ip").1
        86400 "s" = false := by
  refine ⟨?_, by decide, by decide, ?_⟩
  · simp [create_session]
  · simp [is_valid_session, create_session]

/-- C4 amended: the validity check is total (never throws) and returns
false exactly when the id is empty or unknown or the time since the
session's last activity is at least (not strictly exceeds) the configured
timeout; a session is valid immediately after creation, and invalid once
the timeout horizon is reached. -/
theorem session_validity (cfg : Config) (h : 0 < cfg.SESSION_TIMEOUT_HOURS) :
    (∀ (sessions : String → Option SessionData) (now : Int) (sid : String),
        (sid = "" ∨ sessions sid = none) →
        is_valid_session cfg sessions now sid = false)
    ∧ (∀ (sessions : String → Option SessionData)
        (contexts : String → Option UserContext) (sid : String) (now : Int)
        (ip : String), sid ≠ "" →
        is_valid_session cfg (create_session sessions contexts sid now ip).1
          now sid = true)
    ∧ (∀ (sessions : String → Option SessionData) (sid : String)
        (s : SessionData) (now : Int), sessions sid = some s →
        cfg.SESSION_TIMEOUT_HOURS * 3600 ≤ now - s.last_activity →
        is_valid_session cfg sessions now sid = false)
    ∧ (∀ (sessions : String → Option SessionData) (sid : String)
        (s : SessionData) (now : Int), sessions sid = some s → sid ≠ "" →
        now - s.last_activity < cfg.SESSION_TIMEOUT_HOURS * 3600 →
        is_valid_session cfg sessions now sid = true) := by
  have h3600 : 0 < cfg.SESSION_TIMEOUT_HOURS * 3600 := by positivity
  refine ⟨?_, ?_, ?_, ?_⟩
  · rintro sessions now sid (hsid | hnone)
    · simp [is_valid_session, hsid]
    · simp [is_valid_session, hnone]
  · intro sessions contexts sid now ip hsid
    simp [is_valid_session, create_session, hsid]
    omega
  · intro sessions sid s now hs hto
    simp [is_valid_session, hs]
    intro hsid
    omega
  · intro sessions sid s now hs hsid hto
    simp [is_valid_session, hs, hsid]
    omega

theorem session_validity_witness :
    is_valid_session {}
      (create_session (fun _ => none) (fun _ => none) "s" 5 "ip").1 5 "s"
      = true :=
  (session_validity {} (by decide)).2.1 (fun _ => none) (fun _ => none) "s" 5
    "ip" (by decide)

theorem runChecks_spec (cfg : Config) (key : String) :
    ∀ (ts done : List Int) (tr : String → List Int), tr key = done →
      (done ++ ts).Pairwise (fun a b => b < a + 60) →
      (runChecks cfg key ts tr).1.length = ts.length
      ∧ (∀ i, i < ts.length → (runChecks cfg key ts tr).1.getD i true =
          decide (cfg.RATE_LIMIT_PER_MINUTE ≤ done.length +
            min i (cfg.RATE_LIMIT_PER_MINUTE - done.length)))
      ∧ (runChecks cfg key ts tr).2 key =
          done ++ ts.take (cfg.RATE_LIMIT_PER_MINUTE - done.length) := by
  intro ts
  induction ts with
  | nil =>
    intro done tr htr _
    refine ⟨rfl, fun i hi => absurd hi (by simp), ?_⟩
    simpa [runChecks] using htr
  | cons t ts ih =>
    intro done tr htr hpw
    have hparts := List.pairwise_append.mp hpw
    have hcross : ∀ x ∈ done, t - 60 < x := by
      intro x hx
      have := hparts.2.2 x hx t (by simp)
      omega
    have hpruned : (tr key).filter (fun ts => decide (t - 60 < ts)) = done := by
      rw [htr]
      exact List.filter_eq_self.mpr (fun x hx => by simpa using hcross x hx)
    by_cases hL : cfg.RATE_LIMIT_PER_MINUTE ≤ done.length
    · have hstep1 : (is_rate_limited cfg tr t key).1 = true := by
        simp only [is_rate_limited, hpruned]
        rw [if_pos hL]
      have hstep2 : (is_rate_limited cfg tr t key).2 key = done := by
        simp only [is_rate_limited, hpruned]
        rw [if_pos hL]
        simp
      have hpw2 : (done ++ ts).Pairwise (fun a b => b < a + 60) :=
        hpw.sublist (List.Sublist.append_left (List.sublist_cons_self t ts) done)
      have ihr := ih done (is_rate_limited cfg tr t key).2 hstep2 hpw2
      have hzero : cfg.RATE_LIMIT_PER_MINUTE - done.length = 0 := by omega
      refine ⟨?_, ?_, ?_⟩
      · simp only [runChecks]
        simp [ihr.1]
      · intro i hi
        cases i with
        | zero =>
          simp only [runChecks, List.getD_cons_zero, hstep1]
          simp [hzero]
          omega
        | succ i =>
          simp only [runChecks, List.getD_cons_succ]
          rw [ihr.2.1 i (by simpa using hi)]
          simp [hzero]
      · simp only [runChecks]
        rw [ihr.2.2]
        simp [hzero]
    · have hstep1 : (is_rate_limited cfg tr t key).1 = false := by
        simp only [is_rate_limited, hpruned]
        rw [if_neg hL]
      have hstep2 : (is_rate_limited cfg tr t key).2 key = done ++ [t] := by
        simp only [is_rate_limited, hpruned]
        rw [if_neg hL]
        simp
      have hpw2 : ((done ++ [t]) ++ ts).Pairwise (fun a b => b < a + 60) := by
        rw [← List.append_cons]
        exact hpw
      have ihr := ih (done ++ [t]) (is_rate_limited cfg tr t key).2 hstep2 hpw2
      refine ⟨?_, ?_, ?_⟩
      · simp only [runChecks]
        simp [ihr.1]
      · intro i hi
        cases i with
        | zero =>
          simp only [runChecks, List.getD_cons_zero, hstep1]
          simp
          omega
        | succ i =>
          simp only [runChecks, List.getD_cons_succ]
          rw [ihr.2.1 i (by simpa using hi)]
          have harg : (done ++ [t]).length +
              min i (cfg.RATE_LIMIT_PER_MINUTE - (done ++ [t]).length) =
              done.length +
                min (i + 1) (cfg.RATE_LIMIT_PER_MINUTE - done.length) := by
            simp only [List.length_append, List.length_cons, List.length_nil]
            omega
          rw [harg]
      · simp only [runChecks]
        rw [ihr.2.2]
        have hone : cfg.RATE_LIMIT_PER_MINUTE - done.length =
            (cfg.RATE_LIMIT_PER_MINUTE - (done ++ [t]).length) + 1 := by
          simp
          omega
        rw [hone, List.take_succ_cons]
        simp

/-- C1: from an empty record for a key, a sequence of admission checks at
times all within one 60-second window admits exactly the first
`RATE_LIMIT_PER_MINUTE` checks and denies every later one (each check
prunes to the trailing 60 seconds, denies without recording at the
threshold, and otherwise records and allows); the recorded timestamps are
the first `RATE_LIMIT_PER_MINUTE` check times; and once time advances at
least 60 seconds past every checked time, admission resumes. -/
theorem rate_limiter_sliding_window (cfg : Config) (key : String)
    (tracker : String → List Int) (t0 : Int) (ts : List Int)
    (hwin : ∀ t ∈ ts, t0 ≤ t ∧ t < t0 + 60)
    (hempty : tracker key = [])
    (hpos : 0 < cfg.RATE_LIMIT_PER_MINUTE) :
    (∀ i, i < ts.length →
      (runChecks cfg key ts tracker).1.getD i true =
        decide (cfg.RATE_LIMIT_PER_MINUTE ≤ i))
    ∧ (runChecks cfg key ts tracker).2 key =
        ts.take cfg.RATE_LIMIT_PER_MINUTE
    ∧ (∀ t2 : Int, (∀ t ∈ ts, t + 60 ≤ t2) →
        (is_rate_limited cfg (runChecks cfg key ts tracker).2 t2 key).1
          = false) := by
  have hpw : (([] : List Int) ++ ts).Pairwise (fun a b => b < a + 60) := by
    simp only [List.nil_append]
    apply List.pairwise_of_forall_mem_list
    intro a ha b hb
    have h1 := hwin a ha
    have h2 := hwin b hb
    omega
  have hspec := runChecks_spec cfg key ts [] tracker hempty hpw
  refine ⟨?_, ?_, ?_⟩
  · intro i hi
    rw [hspec.2.1 i hi]
    have harg : ([] : List Int).length +
        min i (cfg.RATE_LIMIT_PER_MINUTE - ([] : List Int).length) = min i cfg.RATE_LIMIT_PER_MINUTE := by
      simp
    rw [harg]
    congr 1
    apply propext
    constructor
    · intro h2
      omega
    · intro h2
      omega
  · simpa using hspec.2.2
  · intro t2 ht2
    have hfinal : (runChecks cfg key ts tracker).2 key =
        ts.take cfg.RATE_LIMIT_PER_MINUTE := by simpa using hspec.2.2
    have hfilter : ((runChecks cfg key ts tracker).2 key).filter
        (fun x => decide (t2 - 60 < x)) = [] := by
      rw [hfinal]
      apply List.filter_eq_nil_iff.mpr
      intro x hx
      have hmem : x ∈ ts := List.take_subset _ _ hx
      have := ht2 x hmem
      simp
      omega
    simp only [is_rate_limited, hfilter]
    rw [if_neg (by simp; omega)]

theorem rate_limiter_sliding_window_witness :
    (runChecks { RATE_LIMIT_PER_MINUTE := 2 } "k" [0, 10, 20, 30]
        (fun _ => [])).1.getD 2 true = true
    ∧ (is_rate_limited { RATE_LIMIT_PER_MINUTE := 2 }
        (runChecks { RATE_LIMIT_PER_MINUTE := 2 } "k" [0, 10, 20, 30]
          (fun _ => [])).2 100 "k").1 = false := by
  have h := rate_limiter_sliding_window { RATE_LIMIT_PER_MINUTE := 2 } "k"
    (fun _ => []) 0 [0, 10, 20, 30] (by decide) rfl (by decide)
  exact ⟨by simpa using h.1 2 (by decide), h.2.2 100 (by decide)⟩

theorem matchNameAt_lt_length (text : List Char) (j : Nat) (w : List Char)
    (h : matchNameAt text j = some w) : j < text.length := by
  simp only [matchNameAt] at h
  rcases List.exists_of_findSome?_eq_some h with ⟨alt, halt, hm⟩
  have hne : alt ≠ [] := by
    simp only [nameAlternatives, List.mem_cons, List.mem_singleton,
      List.not_mem_nil, or_false] at halt
    rcases halt with h1 | h1 | h1 | h1 <;> rw [h1] <;> decide
  simp only [altMatchAt] at hm
  by_cases hpre : alt.isPrefixOf (text.drop j)
  · have hp := List.isPrefixOf_iff_prefix.mp hpre
    have hlen : alt.length ≤ (text.drop j).length := hp.length_le
    have : 0 < alt.length := List.length_pos.mpr hne
    simp only [List.length_drop] at hlen
    omega
  · rw [if_neg hpre] at hm
    exact absurd hm (by simp)

theorem searchNameAux_leftmost (text : List Char) :
    ∀ (fuel i j : Nat) (w : List Char), i ≤ j → j < i + fuel →
      matchNameAt text j = some w →
      (∀ k, i ≤ k → k < j → matchNameAt text k = none) →
      searchNameAux text i fuel = some w := by
  intro fuel
  induction fuel with
  | zero =>
    intro i j w hij hlt _ _
    omega
  | succ fuel ih =>
    intro i j w hij hlt hm hleft
    by_cases heq : i = j
    · subst heq
      simp only [searchNameAux]
      rw [hm]
    · have hi : matchNameAt text i = none := hleft i le_rfl (by omega)
      simp only [searchNameAux]
      rw [hi]
      exact ih (i + 1) j w (by omega) (by omega) hm
        (fun k hk1 hk2 => hleft k (by omega) hk2)

theorem searchName_leftmost (text : List Char) (j : Nat) (w : List Char)
    (hm : matchNameAt text j = some w)
    (hleft : ∀ k, k < j → matchNameAt text k = none) :
    searchName text = some w := by
  have hj := matchNameAt_lt_length text j w hm
  exact searchNameAux_leftmost text (text.length + 1) 0 j w (by omega)
    (by omega) hm (fun k _ hk2 => hleft k hk2)

/-- C6 counterexample: for "i am bob and my name is alice" the stored name
is "Bob", although the message also matches the "my name is X" phrase —
the first pattern in the claim's order — which captures "alice". The
single combined regex of line 299 is searched by `re.search`, so the
leftmost occurrence in the text wins, not the earliest pattern in the
list; the claim's predicted "Alice" is wrong. -/
theorem name_extraction_pattern_order_counterexample :
    (update_context emptyContext 0 "i am bob and my name is alice" "r").user_name
        = some "Bob"
    ∧ strContains (lowerStr "i am bob and my name is alice".data)
        "my name is".data = true
    ∧ (update_context emptyContext 0 "i am bob and my name is alice" "r").user_name
        ≠ some "Alice" := by
  refine ⟨by decide, by decide, by decide⟩

/-- C6 amended: name extraction searches the single alternation
`my name is|call me|i am|i'm` followed by whitespace and a word over the
lowered text; the match at the leftmost matching position (alternatives
tried in the listed order at each position) determines the captured name,
which is stored capitalized, overwriting any previously stored name —
regardless of which pattern it came from. -/
theorem name_extraction_leftmost (ctx : UserContext) (now : Int)
    (msg reply : String) (j : Nat) (w : List Char)
    (hm : matchNameAt (lowerStr msg.data) j = some w)
    (hleft : ∀ k, k < j → matchNameAt (lowerStr msg.data) k = none) :
    (update_context ctx now msg reply).user_name =
      some (String.mk (pyCapitalize w)) := by
  simp [update_context, searchName_leftmost (lowerStr msg.data) j w hm hleft]

theorem name_extraction_leftmost_witness :
    (update_context emptyContext 0 "call me al, my name is bob" "r").user_name
      = some "Al" := by
  have h := name_extraction_leftmost emptyContext 0 "call me al, my name is bob"
    "r" 0 "al".data (by decide) (fun k hk => absurd hk (by omega))
  rw [h]
  decide

/-- C3 counterexample: "write code to sort a list" is a code-generation
request and not a knowledge query; with Gemini configured but the
generate call raising, the returned envelope has source `gemini-code`
(with an apology body, lines 554-562), not `error` as the claim's
"or the generative call fails" arm states. -/
theorem code_generation_failure_counterexample :
    (get_response true { GOOGLE_API_KEY := "key" } "wiki"
        (GeminiOutcome.error "boom") (fun _ => none)
        "write code to sort a list" "s").source = "gemini-code"
    ∧ ("gemini-code" : String) ≠ "error" := by
  refine ⟨by decide, by decide⟩

/-- C3 amended: for a message that is a code-generation request and not a
knowledge query, the router never falls through to the fallback
responder; when the generative source is unconfigured (library missing or
empty API key) it returns the `source=error` envelope stating code
generation requires AI setup; when the source is configured, the envelope
has source `gemini-code` even if the call fails (the failure is reported
in the body text, not as an error source). -/
theorem code_generation_no_fallback (genai_available : Bool) (cfg : Config)
    (wiki : String) (outcome : GeminiOutcome)
    (contexts : String → Option UserContext) (msg sid : String)
    (hwiki : is_wikipedia_query msg.data = false)
    (hcode : is_code_request msg.data = true) :
    (get_response genai_available cfg wiki outcome contexts msg sid).source
        ≠ "fallback"
    ∧ ((genai_available = false ∨ cfg.GOOGLE_API_KEY = "") →
        get_response genai_available cfg wiki outcome contexts msg sid =
          { text := "Code generation requires AI setup.", source := "error",
            emoji := "💻" })
    ∧ (genai_available = true → cfg.GOOGLE_API_KEY ≠ "" →
        (get_response genai_available cfg wiki outcome contexts msg sid).source
          = "gemini-code") := by
  simp only [get_response, hwiki, hcode]
  simp only [Bool.false_eq_true, if_false, if_true]
  refine ⟨?_, ?_, ?_⟩
  · simp only [get_gemini_code_response]
    by_cases hav : (!genai_available || decide (cfg.GOOGLE_API_KEY = "")) = true
    · rw [if_pos hav]
      show ("error" : String) ≠ "fallback"
      decide
    · rw [if_neg hav]
      show ("gemini-code" : String) ≠ "fallback"
      decide
  · intro hun
    have hcond : (!genai_available || decide (cfg.GOOGLE_API_KEY = "")) = true := by
      rcases hun with h1 | h1
      · rw [h1]
        rfl
      · simp [h1]
    simp only [get_gemini_code_response]
    rw [if_pos hcond]
  · intro hav hkey
    simp only [get_gemini_code_response]
    rw [if_neg (by simp [hav, hkey])]

theorem code_generation_no_fallback_witness :
    get_response false {} "wiki" (GeminiOutcome.ok none) (fun _ => none)
        "write code to sort a list" "s" =
      { text := "Code generation requires AI setup.", source := "error",
        emoji := "💻" } :=
  (code_generation_no_fallback false {} "wiki" (GeminiOutcome.ok none)
    (fun _ => none) "write code to sort a list" "s" (by decide)
    (by decide)).2.1 (Or.inl rfl)

/-- C10: a successfully fetched page none of whose stripped paragraphs
both exceeds 100 characters and is not a section header produces no
formatted result, and the knowledge lookup then returns the
search-suggestion listing (or not-found apology) that
`_get_search_suggestions` produced, although the fetch itself
succeeded. -/
theorem empty_format_falls_to_suggestions (title content suggestions : String)
    (h : ∀ p ∈ (splitNN [] content.data).map pyStrip,
        p.length ≤ 100 ∨ ['=', '='].isPrefixOf p) :
    format_comprehensive_response title.data content.data = none
    ∧ search_wikipedia_found title content suggestions = suggestions := by
  have hfil : paragraphsOf content.data = [] := by
    apply List.filter_eq_nil_iff.mpr
    intro p hp
    rcases h p hp with h1 | h1
    · simp [qualifiesParagraph]
      intro _
      omega
    · simp [qualifiesParagraph, h1]
  have hfmt : format_comprehensive_response title.data content.data = none := by
    simp [format_comprehensive_response, hfil]
  refine ⟨hfmt, ?_⟩
  simp [search_wikipedia_found, hfmt]

theorem empty_format_falls_to_suggestions_witness :
    search_wikipedia_found "T" "short one\n\n== Header ==" "SUGGESTIONS"
      = "SUGGESTIONS" :=
  (empty_format_falls_to_suggestions "T" "short one\n\n== Header =="
    "SUGGESTIONS" (by decide)).2

set_option maxRecDepth 40000 in
/-- C9 counterexample: with the user name "Ada" known, the "help" reply is
the fixed capability listing (lines 597-602), which has no greeting slot
and does not contain the name — so not every fallback reply interpolates
the known user name. -/
theorem fallback_capability_no_name_counterexample :
    (get_fallback_response
        (fun _ => some { emptyContext with user_name := some "Ada" })
        "help" "s").text = capabilityText
    ∧ strContains capabilityText.data "Ada".data = false := by
  refine ⟨by decide, by decide⟩

/-- C9 amended: the fallback responder is a pure function of the message
and the looked-up user name; the greeting, status, thanks and default
acknowledgment replies interpolate the known user name (a space and the
name, empty when no name is known) into their greeting slot, while the
capability listing and the question prompt are fixed texts without a name
slot; after "my name is Ada" is processed, a subsequent fallback greeting
reply contains "Ada". -/
theorem fallback_responder_interpolation :
    (∀ (contexts contexts2 : String → Option UserContext) (msg sid sid2 : String),
        lookedUpName contexts sid = lookedUpName contexts2 sid2 →
        get_fallback_response contexts msg sid =
          get_fallback_response contexts2 msg sid2)
    ∧ (∀ (contexts : String → Option UserContext) (sid name : String),
        name ≠ "" → lookedUpName contexts sid = name →
        (get_fallback_response contexts "hello" sid).text =
            "👋 Hello" ++ (" " ++ name) ++ "! I'm your AI assistant. How can I help you today?"
          ∧ (get_fallback_response contexts "how are you" sid).text =
            "I'm doing great" ++ (" " ++ name) ++ "! Ready to help. What would you like to know?"
          ∧ (get_fallback_response contexts "thanks" sid).text =
            "You're welcome" ++ (" " ++ name) ++ "! Happy to help anytime! 😊"
          ∧ (get_fallback_response contexts "tell me more" sid).text =
            "I understand" ++ (" " ++ name) ++ "! Feel free to ask me anything, especially factual topics I can research for you."
          ∧ (get_fallback_response contexts "help" sid).text = capabilityText
          ∧ (get_fallback_response contexts "what time is it?" sid).text
              = questionText)
    ∧ ((update_context emptyContext 0 "my name is Ada" "r").user_name
          = some "Ada"
        ∧ strContains (get_fallback_response
            (fun _ => some (update_context emptyContext 0 "my name is Ada" "r"))
            "hello" "s").text.data "Ada".data = true) := by
  refine ⟨?_, ?_, by decide, by decide⟩
  · intro contexts contexts2 msg sid sid2 h
    simp only [get_fallback_response]
    rw [h]
  · intro contexts sid name hname hlook
    refine ⟨?_, ?_, ?_, ?_, ?_, ?_⟩ <;>
      simp +decide [get_fallback_response, hlook, hname]

theorem fallback_responder_interpolation_witness :
    (get_fallback_response
        (fun _ => some { emptyContext with user_name := some "Ada" })
        "hello" "s").text =
      "👋 Hello" ++ (" " ++ "Ada") ++ "! I'm your AI assistant. How can I help you today?" :=
  ((fallback_responder_interpolation).2.1
    (fun _ => some { emptyContext with user_name := some "Ada" }) "s" "Ada"
    (by decide) (by decide)).1

theorem splitNN_cons_ne (acc : List Char) (c : Char) (rest : List Char)
    (hc : c ≠ '\n') : splitNN acc (c :: rest) = splitNN (c :: acc) rest := by
  cases rest with
  | nil => simp [splitNN, hc]
  | cons c2 rest2 => simp [splitNN, hc]

theorem splitNN_replicate (n : Nat) (acc : List Char) :
    splitNN acc (List.replicate n 'a') = [acc.reverse ++ List.replicate n 'a'] := by
  induction n generalizing acc with
  | zero => simp [splitNN]
  | succ n ih =>
    rw [List.replicate_succ, splitNN_cons_ne acc 'a' _ (by decide),
      ih ('a' :: acc)]
    simp

theorem dropWhile_replicate_a (n : Nat) :
    (List.replicate n 'a').dropWhile isSpaceChar = List.replicate n 'a' := by
  cases n with
  | zero => simp
  | succ n =>
    rw [List.replicate_succ, List.dropWhile_cons]
    rw [if_neg (by decide)]

theorem pyStrip_replicate_a (n : Nat) :
    pyStrip (List.replicate n 'a') = List.replicate n 'a' := by
  simp only [pyStrip, dropWhile_replicate_a, List.reverse_replicate,
    dropWhile_replicate_a]

theorem getD_replicate_a (n i : Nat) (c d : Char) (h : i < n) :
    (List.replicate n c).getD i d = c := by
  induction n generalizing i with
  | zero => omega
  | succ n ih =>
    rw [List.replicate_succ]
    cases i with
    | zero => simp
    | succ i =>
      simp only [List.getD_cons_succ]
      exact ih i (by omega)

theorem dropWhile_length_le (p : Char → Bool) (l : List Char) :
    (l.dropWhile p).length ≤ l.length := by
  induction l with
  | nil => simp
  | cons c l ih =>
    rw [List.dropWhile_cons]
    split
    · simp
      omega
    · simp

theorem rsplitDotFst_length_le (s : List Char) :
    (rsplitDotFst s).length ≤ s.length := by
  simp only [rsplitDotFst]
  split
  · simp only [List.length_reverse]
    have h1 := List.length_tail (s.reverse.dropWhile (fun c => c ≠ '.'))
    have h2 := dropWhile_length_le (fun c : Char => decide (c ≠ '.')) s.reverse
    simp only [List.length_reverse] at h2
    omega
  · exact le_rfl

theorem dropWhile_ne_dot (r : List Char) (h : '.' ∈ r) :
    ∃ w t, r = w ++ '.' :: t ∧ '.' ∉ w ∧
      r.dropWhile (fun c => c ≠ '.') = '.' :: t := by
  induction r with
  | nil => simp at h
  | cons c r ih =>
    by_cases hc : c = '.'
    · subst hc
      exact ⟨[], r, by simp, by simp, by simp [List.dropWhile_cons]⟩
    · have hm : '.' ∈ r := by
        rcases List.mem_cons.mp h with h1 | h1
        · exact absurd h1.symm hc
        · exact h1
      rcases ih hm with ⟨w, t, heq, hw, hd⟩
      refine ⟨c :: w, t, by simp [heq], ?_, ?_⟩
      · simp [hw]
        intro hcontra
        exact hc hcontra.symm
      · rw [List.dropWhile_cons, if_pos (by simpa using hc)]
        exact hd

theorem rsplitDotFst_spec (s : List Char) (h : '.' ∈ s) :
    ∃ u v, s = u ++ '.' :: v ∧ '.' ∉ v ∧ rsplitDotFst s = u := by
  rcases dropWhile_ne_dot s.reverse (by simpa using h) with ⟨w, t, heq, hw, hd⟩
  refine ⟨t.reverse, w.reverse, ?_, by simpa using hw, ?_⟩
  · have h2 := congrArg List.reverse heq
    simp only [List.reverse_reverse, List.reverse_append, List.reverse_cons,
      List.append_assoc, List.singleton_append, List.nil_append] at h2
    simpa using h2
  · simp only [rsplitDotFst]
    rw [if_pos h, hd]
    simp

theorem formatLoop_flatten_length : ∀ (ps : List (List Char)) (cl : Nat),
    ((formatLoop ps cl).flatten).length ≤ 4002 - cl := by
  intro ps
  induction ps with
  | nil =>
    intro cl
    simp [formatLoop]
  | cons para rest ih =>
    intro cl
    simp only [formatLoop]
    have hnn : ("\n\n".data).length = 2 := rfl
    by_cases h1 : 4000 < cl + para.length
    · rw [if_pos h1]
      by_cases h2 : cl < 3000
      · rw [if_pos h2]
        have h3 := rsplitDotFst_length_le (para.take (4000 - cl - 50))
        have h4 : (para.take (4000 - cl - 50)).length ≤ 4000 - cl - 50 := by
          rw [List.length_take]
          omega
        simp only [List.flatten_cons, List.flatten_nil, List.append_nil,
          List.length_append, List.length_singleton, List.length_cons,
          List.length_nil]
        omega
      · rw [if_neg h2]
        simp
    · rw [if_neg h1]
      by_cases h2 : 3500 ≤ cl + para.length + 2
      · rw [if_pos h2]
        simp only [List.flatten_cons, List.flatten_nil, List.append_nil,
          List.length_append, List.length_cons, List.length_nil]
        omega
      · rw [if_neg h2]
        have h3 := ih (cl + para.length + 2)
        simp only [List.flatten_cons, List.length_append, List.length_cons,
          List.length_nil]
        omega

theorem format4100_eq :
    format_comprehensive_response ['T'] (List.replicate 4100 'a') =
      some (headPart ['T'] ++
        (List.replicate 3941 'a' ++ ['.'] ++ "\n\n".data) ++ wikiFooter) := by
  have hlen : (List.replicate 4100 'a').length = 4100 := by
    rw [List.length_replicate]
  have hrep : List.replicate 4100 'a' = 'a' :: List.replicate 4099 'a' := by
    rw [← List.replicate_succ]
  have hq : qualifiesParagraph (List.replicate 4100 'a') = true := by
    simp only [qualifiesParagraph, hrep]
    simp only [List.isEmpty_cons, Bool.not_false, Bool.true_and,
      List.length_cons, List.length_replicate]
    simp only [List.isPrefixOf, show ('=' == 'a') = false from by decide,
      Bool.false_and, Bool.not_false, Bool.and_true]
    decide
  have hparas : paragraphsOf (List.replicate 4100 'a') =
      [List.replicate 4100 'a'] := by
    simp only [paragraphsOf, splitNN_replicate, List.reverse_nil,
      List.nil_append, List.map_cons, List.map_nil, pyStrip_replicate_a]
    simp only [List.filter_cons, hq, if_true, List.filter_nil]
  have hhead : (headPart ['T']).length = 9 := rfl
  have htake : (List.replicate 4100 'a').take 3941 = List.replicate 3941 'a' := by
    rw [List.take_replicate]
    norm_num [Nat.min_def]
  have hrsplit : rsplitDotFst (List.replicate 3941 'a') =
      List.replicate 3941 'a' := by
    simp only [rsplitDotFst]
    rw [if_neg (by simp only [List.mem_replicate]; decide)]
  have hloop : formatLoop [List.replicate 4100 'a'] 9 =
      [List.replicate 3941 'a' ++ ['.'] ++ "\n\n".data] := by
    simp only [formatLoop, hlen]
    rw [if_pos (by omega), if_pos (by omega)]
    rw [show (4000 : Nat) - 9 - 50 = 3941 by norm_num]
    rw [htake, hrsplit]
  simp only [format_comprehensive_response, hparas, List.isEmpty_cons,
    Bool.false_eq_true, if_false, hhead, hloop]
  simp only [List.flatten_cons, List.flatten_nil, List.append_nil]

set_option maxRecDepth 40000 in
/-- C7 counterexample: a page titled "T" whose content is one 4100-
character paragraph of the single word `aaa…a` exceeds the hard cap with
fewer than 3000 characters accumulated, so one truncated paragraph is
appended: `para[:3941]` contains no period, `rsplit('.', 1)[0]` returns
the whole slice, and a period is appended (line 405). The kept slice cuts
the word between two word characters and ends at no sentence boundary of
the paragraph, refuting "never cut mid-word" and "truncated at the last
sentence boundary before the cap". -/
theorem wiki_format_midword_counterexample :
    format_comprehensive_response ['T'] (List.replicate 4100 'a') =
      some (headPart ['T'] ++
        (List.replicate 3941 'a' ++ ['.'] ++ "\n\n".data) ++ wikiFooter)
    ∧ isWordChar ((List.replicate 4100 'a').getD 3940 ' ') = true
    ∧ isWordChar ((List.replicate 4100 'a').getD 3941 ' ') = true
    ∧ ¬('.' ∈ List.take 3941 (List.replicate 4100 'a')) := by
  refine ⟨format4100_eq, ?_, ?_, ?_⟩
  · rw [getD_replicate_a 4100 3940 'a' ' ' (by norm_num)]
    decide
  · rw [getD_replicate_a 4100 3941 'a' ' ' (by norm_num)]
    decide
  · rw [List.take_replicate]
    simp only [List.mem_replicate]
    decide

/-- C7 amended: the formatted knowledge response's total length is at most
the hard cap 4000 plus the title heading and the fixed footer; when the
cap is reached before 3000 characters have been emitted, the one extra
paragraph is truncated at the last sentence boundary before the cap
whenever the capped slice contains a period (the emitted text is then a
prefix of the paragraph ending in a period); when the slice contains no
period the entire slice is kept with a period appended, which can cut
mid-word. -/
theorem wiki_format_cap :
    (∀ (title content s : List Char),
        format_comprehensive_response title content = some s →
        s.length ≤ 4000 + (headPart title).length + wikiFooter.length)
    ∧ (∀ p : List Char, '.' ∈ p →
        ∃ k, 0 < k ∧ k ≤ p.length ∧ rsplitDotFst p ++ ['.'] = p.take k
          ∧ p.getD (k - 1) ' ' = '.') := by
  constructor
  · intro title content s hf
    simp only [format_comprehensive_response] at hf
    split at hf
    · exact absurd hf (by simp)
    · have hs : s = headPart title ++
          (formatLoop (paragraphsOf content) (headPart title).length).flatten
          ++ wikiFooter := by
        exact (Option.some_inj.mp hf).symm
      have hflat := formatLoop_flatten_length (paragraphsOf content)
        (headPart title).length
      have hhead : (headPart title).length = title.length + 8 := by
        simp [headPart]
      rw [hs]
      simp only [List.length_append]
      omega
  · intro p hp
    rcases rsplitDotFst_spec p hp with ⟨u, v, hsplit, hv, hu⟩
    refine ⟨u.length + 1, by omega, ?_, ?_, ?_⟩
    · rw [hsplit]
      simp only [List.length_append, List.length_cons]
      omega
    · rw [hu]
      have htk : (u ++ '.' :: v).take (u.length + 1) = u ++ ['.'] := by
        rw [List.append_cons u '.' v]
        rw [show u.length + 1 = (u ++ ['.']).length by simp]
        exact List.take_left (u ++ ['.']) v
      rw [hsplit, htk]
    · rw [hsplit]
      simp only [Nat.add_sub_cancel]
      rw [List.getD_eq_getElem?_getD, List.getElem?_append_right (le_refl u.length)]
      simp

theorem wiki_format_cap_witness :
    (headPart ['T'] ++
        (List.replicate 3941 'a' ++ ['.'] ++ "\n\n".data) ++ wikiFooter).length
      ≤ 4000 + (headPart ['T']).length + wikiFooter.length
    ∧ ∃ k, 0 < k ∧ k ≤ ("ab.cd".data).length
        ∧ rsplitDotFst "ab.cd".data ++ ['.'] = ("ab.cd".data).take k
        ∧ ("ab.cd".data).getD (k - 1) ' ' = '.' :=
  ⟨(wiki_format_cap).1 ['T'] (List.replicate 4100 'a') _ format4100_eq,
   (wiki_format_cap).2 "ab.cd".data (by decide)⟩

end App
